import Mathlib

/-!
Verification of the episode-indexed storage and view-composition layer of the
Kabuki (Minari) repository.

The first part embeds the code of `minari/minari_storage.py` and
`minari/storage/local.py`: the HDF5 container is modelled as an attribute map
plus a map from episode index to episode record, and the filesystem as a map
from paths to containers.  The second part models, from the specification, the
dataset-handle operations (`update_dataset_from_buffer`, `filter_episodes`,
`sample_episodes`) whose implementing module is not part of the sources.
-/

namespace Kabuki

/-- A value stored as an HDF5 root attribute: integers, strings, booleans and
lists of strings cover the attributes the code reads (`f.attrs[k]`). -/
inductive AttrVal where
  | intV (n : Int)
  | strV (s : String)
  | boolV (b : Bool)
  | strListV (l : List String)
  deriving DecidableEq

/-- One stored episode record: the per-step arrays described by the data
model.  Observations and actions are kept as flat integer lists, since their
space structure is handled by an external codec. -/
structure EpisodeRecord where
  observations : List Int
  actions : List Int
  rewards : List Int
  terminations : List Bool
  truncations : List Bool
  deriving DecidableEq

/-- An HDF5 container (`main_data.hdf5`): root attributes plus one group per
episode, keyed by the integer in the group name `episode_i`. -/
structure H5File where
  attrs : List (String × AttrVal)
  episodes : List (Nat × EpisodeRecord)
  deriving DecidableEq

/-- The filesystem visible to the storage layer: a map from paths to HDF5
containers. -/
abbrev FileSystem := List (String × H5File)

/-- Lookup in a string-keyed association list (`dict.get` / `attrs[k]`). -/
def lookupKey (l : List (String × AttrVal)) (k : String) : Option AttrVal :=
  (l.find? (fun p => p.1 == k)).map Prod.snd

/-- Read a root attribute of a container. -/
def lookupAttr (f : H5File) (k : String) : Option AttrVal :=
  lookupKey f.attrs k

/-- Read the episode group `episode_i` of a container; `none` models the
KeyError h5py raises when the group is absent. -/
def lookupEpisode (f : H5File) (i : Nat) : Option EpisodeRecord :=
  (f.episodes.find? (fun p => p.1 == i)).map Prod.snd

/-- Open a file for reading; `none` models FileNotFoundError. -/
def lookupFile (fs : FileSystem) (p : String) : Option H5File :=
  (fs.find? (fun q => q.1 == p)).map Prod.snd

/-- The failures of the storage layer.  `notFound` models
FileNotFoundError, `missingAttr` a KeyError on a root attribute,
`malformedAttr` a failed type assertion or parse on an attribute value,
`invalidIndex` the KeyError on a missing episode group, and the last two the
value errors of the handle layer. -/
inductive StorageErr where
  | notFound
  | missingAttr (key : String)
  | malformedAttr (key : String)
  | invalidIndex (i : Nat)
  | samplingError
  | schemaMismatch
  deriving DecidableEq

/-- The in-memory state of a `MinariStorage` object after `__init__`: every
field is read once from the container's root attributes and cached.  The
flatten flags and dataset name are stored untyped, exactly as the code
assigns whatever `f.attrs[...]` returns. -/
structure MinariStorage where
  _data_path : String
  _flatten_observations : AttrVal
  _flatten_actions : AttrVal
  _env_spec : String
  _total_episodes : Int
  _total_steps : Int
  _dataset_name : AttrVal
  _combined_datasets : Option AttrVal
  deriving DecidableEq

/-- `EnvSpec.from_json` of the external gymnasium library: it requires a
string argument; the JSON decoding itself is external, so any string is
accepted and a non-string attribute is the malformation that is modelled. -/
def envSpecFromJson (v : AttrVal) : Option String :=
  match v with
  | .strV s => some s
  | _ => none

/-- Lift a lookup result into the failure monad: an absent value raises the
given error, as the corresponding Python exception would. -/
def getOrE {β : Type} : Option β → StorageErr → Except StorageErr β
  | none, e => .error e
  | some x, _ => .ok x

/-- The `assert isinstance(x, int)` on a read attribute: a non-integer
value is a malformed attribute. -/
def assertInt : AttrVal → String → Except StorageErr Int
  | .intV n, _ => .ok n
  | .strV _, key => .error (.malformedAttr key)
  | .boolV _, key => .error (.malformedAttr key)
  | .strListV _, key => .error (.malformedAttr key)

/-- `MinariStorage.__init__`: open the container at `data_path`, read the
root attributes in program order (flatten flags, env spec, the two totals
with their integer assertions, dataset name), and cache them; the
`combined_datasets` attribute is read with `attrs.get`, so absence is not an
error.  The trailing `gym.make` call that snapshots the spaces is an
external collaborator and is out of scope. -/
def openStorage (fs : FileSystem) (data_path : String) :
    Except StorageErr MinariStorage := do
  let f ← getOrE (lookupFile fs data_path) .notFound
  let fo ← getOrE (lookupAttr f "flatten_observation")
    (.missingAttr "flatten_observation")
  let fa ← getOrE (lookupAttr f "flatten_action")
    (.missingAttr "flatten_action")
  let es ← getOrE (lookupAttr f "env_spec") (.missingAttr "env_spec")
  let espec ← getOrE (envSpecFromJson es) (.malformedAttr "env_spec")
  let te ← getOrE (lookupAttr f "total_episodes")
    (.missingAttr "total_episodes")
  let nte ← assertInt te "total_episodes"
  let ts ← getOrE (lookupAttr f "total_steps") (.missingAttr "total_steps")
  let nts ← assertInt ts "total_steps"
  let dn ← getOrE (lookupAttr f "dataset_name") (.missingAttr "dataset_name")
  pure { _data_path := data_path
         _flatten_observations := fo
         _flatten_actions := fa
         _env_spec := espec
         _total_episodes := nte
         _total_steps := nts
         _dataset_name := dn
         _combined_datasets := lookupAttr f "combined_datasets" }

/-- Accessor `total_episodes`: returns the cached field. -/
def MinariStorage.total_episodes (s : MinariStorage) : Int :=
  s._total_episodes

/-- Accessor `total_steps`: returns the cached field. -/
def MinariStorage.total_steps (s : MinariStorage) : Int :=
  s._total_steps

/-- Accessor `name`: returns the cached field. -/
def MinariStorage.name (s : MinariStorage) : AttrVal :=
  s._dataset_name

/-- Accessor `env_spec`: returns the cached field. -/
def MinariStorage.env_spec (s : MinariStorage) : String :=
  s._env_spec

/-- Accessor `flatten_observations`: returns the cached field. -/
def MinariStorage.flatten_observations (s : MinariStorage) : AttrVal :=
  s._flatten_observations

/-- Accessor `flatten_actions`: returns the cached field. -/
def MinariStorage.flatten_actions (s : MinariStorage) : AttrVal :=
  s._flatten_actions

/-- Accessor `data_path`: returns the cached field. -/
def MinariStorage.data_path (s : MinariStorage) : String :=
  s._data_path

/-- Accessor `combined_datasets`: the empty list when the attribute was
absent at open time, otherwise the cached value. -/
def MinariStorage.combined_datasets (s : MinariStorage) : AttrVal :=
  match s._combined_datasets with
  | none => .strListV []
  | some v => v

/-- The shared loop of `get_episodes` and `apply`: read each requested
episode group in order, apply `g`, and collect the results in an output
list; the first missing group aborts the loop. -/
def readMap {α : Type} (f : H5File) (g : EpisodeRecord → α) :
    List Nat → Except StorageErr (List α)
  | [] => .ok []
  | i :: rest =>
    match lookupEpisode f i with
    | none => .error (.invalidIndex i)
    | some r =>
      match readMap f g rest with
      | .error e => .error e
      | .ok l => .ok (g r :: l)

/-- `MinariStorage.get_episodes`: reopen the container at the cached path and
read the full record of each requested episode group, in order. -/
def MinariStorage.get_episodes (fs : FileSystem) (s : MinariStorage)
    (episode_indices : List Nat) : Except StorageErr (List EpisodeRecord) :=
  match lookupFile fs s._data_path with
  | none => .error .notFound
  | some f => readMap f (fun r => r) episode_indices

/-- `MinariStorage.apply`: apply a function to each requested episode group,
defaulting the index set to `range(total_episodes)`, and collect the
results. -/
def MinariStorage.apply {α : Type} (fs : FileSystem) (s : MinariStorage)
    (function : EpisodeRecord → α) (episode_indices : Option (List Nat)) :
    Except StorageErr (List α) :=
  match lookupFile fs s._data_path with
  | none => .error .notFound
  | some f =>
    readMap f function
      (match episode_indices with
       | none => List.range s._total_episodes.toNat
       | some l => l)

/-! ## The local dataset registry (`minari/storage/local.py`) -/

/-- One directory under the datasets root: its name, the result of listing
its entries, and the root attributes of its `data/main_data.hdf5` container
when that file exists. -/
structure DatasetDir where
  dirName : String
  entries : List String
  mainData : Option (List (String × AttrVal))
  deriving DecidableEq

/-- The datasets root directory, in the order `os.listdir` yields it. -/
abbrev DatasetRoot := List DatasetDir

/-- Python's `name.startswith(".")`: the name's first character is a dot
(spelled out on the character list so that it evaluates by kernel
reduction). -/
def startsWithDot (s : String) : Bool :=
  match s.data with
  | [] => false
  | c :: _ => c == '.'

/-- Find the directory with a given name under the root. -/
def findDir (root : DatasetRoot) (dst_id : String) : Option DatasetDir :=
  root.find? (fun d => d.dirName == dst_id)

/-- Drop trailing zero components, so that release lists compare the way the
external `packaging.version` parser compares them (1.0 equals 1.0.0). -/
def stripTrailingZeros : List Nat → List Nat
  | [] => []
  | x :: xs =>
    match stripTrailingZeros xs with
    | [] => if x = 0 then [] else [x]
    | ys => x :: ys

/-- `packaging.version.parse`, modelled on release segments: split the string
on dots, read each segment as a number, and normalize trailing zeros.  Epoch
and pre/post/dev segments of the external parser are out of scope. -/
def parseVersion (s : String) : List Nat :=
  stripTrailingZeros ((s.splitOn ".").map (fun c => c.toNat?.getD 0))

/-- Insert a string into a list that is sorted ascending. -/
def insertSorted (x : String) : List String → List String
  | [] => [x]
  | y :: ys => if x ≤ y then x :: y :: ys else y :: insertSorted x ys

/-- Python's `sorted` on strings: lexicographic ascending order. -/
def sortStrings : List String → List String
  | [] => []
  | x :: xs => insertSorted x (sortStrings xs)

/-- The loop body of `list_local_datasets` over the sorted id list: skip ids
whose directory has no `data` entry, open the main container, and — when
`compatible_minari_version` is set — keep the id only when its stored
`minari_version` parses equal to the running version. -/
def collectDatasets (root : DatasetRoot) (current_version : String)
    (compatible_minari_version : Bool) :
    List String → Except StorageErr (List (String × List (String × AttrVal)))
  | [] => .ok []
  | dst_id :: rest =>
    match findDir root dst_id with
    | none => .error .notFound
    | some d =>
      if d.entries.contains "data" then
        match d.mainData with
        | none => .error .notFound
        | some metadata =>
          if compatible_minari_version then
            match lookupKey metadata "minari_version" with
            | some (.strV v) =>
              if parseVersion v = parseVersion current_version then
                match collectDatasets root current_version compatible_minari_version rest with
                | .error e => .error e
                | .ok l => .ok ((dst_id, metadata) :: l)
              else collectDatasets root current_version compatible_minari_version rest
            | some _ => .error (.malformedAttr "minari_version")
            | none => .error (.missingAttr "minari_version")
          else
            match collectDatasets root current_version compatible_minari_version rest with
            | .error e => .error e
            | .ok l => .ok ((dst_id, metadata) :: l)
      else collectDatasets root current_version compatible_minari_version rest

/-- `list_local_datasets`: list the root, drop hidden names, sort the rest,
and collect the id-to-metadata mapping in that order. -/
def list_local_datasets (root : DatasetRoot) (current_version : String)
    (compatible_minari_version : Bool) :
    Except StorageErr (List (String × List (String × AttrVal))) :=
  collectDatasets root current_version compatible_minari_version
    (sortStrings ((root.map DatasetDir.dirName).filter
      (fun n => !(startsWithDot n))))

/-! ## The dataset-handle layer

The module implementing `MinariDataset` (filtering, sampling, and the two
update operations) is not among the sources; only its tests are.  The
definitions below are therefore modelled from the specification. -/

/-- Modelled from the spec: one raw episode entry of a pending buffer, with
per-step observation, action, reward, termination and truncation values, not
yet validated (section on the collector interface and the BufferIngestor). -/
structure RawEpisode where
  observations : List Int
  actions : List Int
  rewards : List Int
  terminations : List Bool
  truncations : List Bool
  deriving DecidableEq

/-- Modelled from the spec: the BufferIngestor validates one raw entry by
confirming that rewards, terminations and truncations have equal length,
failing with a schema mismatch otherwise, and produces the canonical record
whose step count is the length of the rewards.  The per-step shape check
against the declared spaces uses the external space codec and is out of
scope. -/
def ingest (raw : RawEpisode) : Except StorageErr EpisodeRecord :=
  if raw.rewards.length = raw.terminations.length ∧
      raw.rewards.length = raw.truncations.length then
    .ok { observations := raw.observations
          actions := raw.actions
          rewards := raw.rewards
          terminations := raw.terminations
          truncations := raw.truncations }
  else .error .schemaMismatch

/-- Modelled from the spec: the StorageBackend as the handle layer sees it —
the stored records in id order plus the backend-wide totals (the
`MinariDataset` module owning this state is not among the sources). -/
structure Backend where
  episodes : List EpisodeRecord
  total_episodes : Nat
  total_steps : Nat
  deriving DecidableEq

/-- Modelled from the spec: `write_episode` assigns `id = total_episodes`,
persists the record at the end of the id range, bumps both totals, and
returns the assigned id. -/
def Backend.write_episode (b : Backend) (r : EpisodeRecord) : Backend × Nat :=
  ({ episodes := b.episodes ++ [r]
     total_episodes := b.total_episodes + 1
     total_steps := b.total_steps + r.rewards.length },
   b.total_episodes)

/-- Modelled from the spec: a DatasetHandle binds an IndexView (the
`episode_indices` of the missing `MinariDataset` module) to a backend and
keeps its own totals over the view members only. -/
structure DatasetHandle where
  episode_indices : List Nat
  total_episodes : Nat
  total_steps : Nat
  deriving DecidableEq

/-- Modelled from the spec: the write loop of `update_dataset_from_buffer` —
for each raw episode in order, ingest it and write it into the backend,
collecting the assigned ids and the step sum of the newly added episodes. -/
def writeBuffer (b : Backend) :
    List RawEpisode → Except StorageErr (Backend × List Nat × Nat)
  | [] => .ok (b, [], 0)
  | raw :: rest =>
    match ingest raw with
    | .error e => .error e
    | .ok canon =>
      match writeBuffer (b.write_episode canon).1 rest with
      | .error e => .error e
      | .ok (b'', ids, steps) =>
        .ok (b'', (b.write_episode canon).2 :: ids, canon.rewards.length + steps)

/-- Modelled from the spec: `update_dataset_from_buffer` writes the whole
buffer through the ingestor, then extends this handle's own view with the
newly assigned ids in assignment order and raises this handle's totals by
the count and step sum of the added episodes. -/
def update_dataset_from_buffer (b : Backend) (h : DatasetHandle)
    (buffer : List RawEpisode) : Except StorageErr (Backend × DatasetHandle) :=
  match writeBuffer b buffer with
  | .error e => .error e
  | .ok (b', new_ids, steps) =>
    .ok (b', { episode_indices := h.episode_indices ++ new_ids
               total_episodes := h.total_episodes + new_ids.length
               total_steps := h.total_steps + steps })

/-- The step count of a view member as stored in the backend, zero when the
id is out of range (a well-formed view never is). -/
def memberSteps (b : Backend) (i : Nat) : Nat :=
  match b.episodes[i]? with
  | some r => r.rewards.length
  | none => 0

/-- Modelled from the spec: `filter_episodes` evaluates the predicate on the
materialized episode (its id and stored record) of each view member in
order, keeps the ids for which it holds without renumbering, and recomputes
the handle totals from the filtered subset. -/
def filter_episodes (b : Backend) (h : DatasetHandle)
    (pred : Nat → EpisodeRecord → Bool) : DatasetHandle :=
  let view := h.episode_indices.filter (fun i =>
    match b.episodes[i]? with
    | some r => pred i r
    | none => false)
  { episode_indices := view
    total_episodes := view.length
    total_steps := (view.map (memberSteps b)).sum }

/-- One draw without replacement: pick the element at the random position
`r mod length` and remove it. -/
def pickIndex (xs : List Nat) (r : Nat) : Nat × List Nat :=
  (xs.getD (r % xs.length) 0, xs.eraseIdx (r % xs.length))

/-- Draw `k` elements without replacement, consuming one value of the
randomness stream per draw. -/
def pickMany : Nat → List Nat → List Nat → List Nat
  | 0, _, _ => []
  | _ + 1, [], _ => []
  | k + 1, x :: xs, rs =>
    (pickIndex (x :: xs) (rs.headD 0)).1 ::
      pickMany k (pickIndex (x :: xs) (rs.headD 0)).2 (rs.drop 1)

/-- Modelled from the spec: `sample_episodes(k)` draws `k` distinct ids
without replacement from the view, failing with a sampling error when `k`
exceeds the view size; the randomness source is passed in as a stream. -/
def sample_episodes (h : DatasetHandle) (k : Nat) (rs : List Nat) :
    Except StorageErr (List Nat) :=
  if h.episode_indices.length < k then .error .samplingError
  else .ok (pickMany k h.episode_indices rs)

/-- Modelled from the spec: a world of one shared backend and several named
handles over it, to state which views an append touches. -/
structure World where
  backend : Backend
  handles : List (String × DatasetHandle)

/-- Lookup a handle of the world by name. -/
def lookupHandle (w : World) (n : String) : Option DatasetHandle :=
  (w.handles.find? (fun p => p.1 == n)).map Prod.snd

/-- Modelled from the spec: an append performed through the named handle —
the backend grows, and only the acting handle's entry is replaced by the
extended handle; sibling entries are left as they are. -/
def World.update_via (w : World) (n : String) (buffer : List RawEpisode) :
    Except StorageErr World :=
  match lookupHandle w n with
  | none => .error .notFound
  | some h =>
    match update_dataset_from_buffer w.backend h buffer with
    | .error e => .error e
    | .ok (b', h') =>
      .ok { backend := b'
            handles := w.handles.map (fun p => if p.1 == n then (p.1, h') else p) }

/-! ## Container growth by another writer, and read-operation sequences -/

/-- Overwrite or add one root attribute of a container: the updated binding
shadows any previous binding of the same key. -/
def setAttr (attrs : List (String × AttrVal)) (k : String) (v : AttrVal) :
    List (String × AttrVal) :=
  (k, v) :: attrs.filter (fun q => !(q.1 == k))

/-- The integer value of a stored attribute, zero when absent or of another
shape (a well-formed container always stores the counters as integers). -/
def attrInt (l : List (String × AttrVal)) (k : String) : Int :=
  match lookupKey l k with
  | some (.intV m) => m
  | _ => 0

/-- Modelled from the spec: the persisted effect of one `write_episode` on
the container — the new payload appears under the next sequential id and the
two total attributes are committed (the writing module is not among the
sources). -/
def writeEpisodeToFile (f : H5File) (r : EpisodeRecord) : H5File :=
  { attrs := setAttr
      (setAttr f.attrs "total_episodes"
        (.intV (attrInt f.attrs "total_episodes" + 1)))
      "total_steps"
      (.intV (attrInt f.attrs "total_steps" + r.rewards.length))
    episodes := f.episodes ++
      [((attrInt f.attrs "total_episodes").toNat, r)] }

/-- Modelled from the spec: growth of one container of the filesystem by
another writer; paths other than `p` are untouched. -/
def growContainer (fs : FileSystem) (p : String) (r : EpisodeRecord) :
    FileSystem :=
  fs.map (fun q => if q.1 == p then (q.1, writeEpisodeToFile q.2 r) else q)

/-- One read operation against an open storage object: reading episodes,
applying a function over episodes, or reading a cached metadata attribute. -/
inductive ReadOp where
  | getEps (episode_indices : List Nat)
  | applyF (g : EpisodeRecord → Nat) (episode_indices : Option (List Nat))
  | readTotalEpisodes
  | readTotalSteps
  | readName
  | readCombined

/-- The result of one read operation. -/
inductive ReadResult where
  | recs (l : List EpisodeRecord)
  | vals (l : List Nat)
  | intR (n : Int)
  | attrR (v : AttrVal)
  | err (e : StorageErr)

/-- Run one read operation, threading the filesystem state it leaves
behind: `get_episodes` and `apply` open the container read-only, the
accessors only touch the cached snapshot. -/
def runRead (fs : FileSystem) (s : MinariStorage) :
    ReadOp → ReadResult × FileSystem
  | .getEps idx =>
    (match MinariStorage.get_episodes fs s idx with
     | .ok l => .recs l
     | .error e => .err e, fs)
  | .applyF g idx =>
    (match MinariStorage.apply fs s g idx with
     | .ok l => .vals l
     | .error e => .err e, fs)
  | .readTotalEpisodes => (.intR s.total_episodes, fs)
  | .readTotalSteps => (.intR s.total_steps, fs)
  | .readName => (.attrR s.name, fs)
  | .readCombined => (.attrR s.combined_datasets, fs)

/-- Run a sequence of read operations, each through its own storage handle,
threading the filesystem state from one to the next. -/
def runReads (fs : FileSystem) :
    List (MinariStorage × ReadOp) → List ReadResult × FileSystem
  | [] => ([], fs)
  | (s, op) :: rest =>
    ((runRead fs s op).1 :: (runReads (runRead fs s op).2 rest).1,
     (runReads (runRead fs s op).2 rest).2)

/-! ## Error classes and registry predicates -/

/-- The error class the specification calls CorruptFormat: a missing or
malformed required root attribute. -/
def isCorruptErr : StorageErr → Bool
  | .missingAttr _ => true
  | .malformedAttr _ => true
  | _ => false

/-- The root attributes `__init__` reads unconditionally. -/
def requiredAttrNames : List String :=
  ["flatten_observation", "flatten_action", "env_spec",
   "total_episodes", "total_steps", "dataset_name"]

/-- Some required root attribute is absent, or present but failing the
code's own validation (the env-spec parse, or the integer assertions on the
two totals). -/
def requiredProblem (f : H5File) : Prop :=
  (∃ k, k ∈ requiredAttrNames ∧ lookupAttr f k = none) ∨
  (∃ v, lookupAttr f "env_spec" = some v ∧ envSpecFromJson v = none) ∨
  (∃ v, lookupAttr f "total_episodes" = some v ∧ ∀ n : Int, v ≠ .intV n) ∨
  (∃ v, lookupAttr f "total_steps" = some v ∧ ∀ n : Int, v ≠ .intV n)

/-- A dataset directory the listing loop can process without crashing: when
it advertises a `data` entry its main container exists, and when the version
check will run its `minari_version` attribute is a string. -/
def dirWF (compatible_minari_version : Bool) (d : DatasetDir) : Bool :=
  !(d.entries.contains "data") ||
    (match d.mainData with
     | none => false
     | some md =>
       !compatible_minari_version ||
         (match lookupKey md "minari_version" with
          | some (.strV _) => true
          | _ => false))

/-- The stored `minari_version` of a metadata map parses equal to the
running version. -/
def versionIncluded (metadata : List (String × AttrVal))
    (current_version : String) : Bool :=
  match lookupKey metadata "minari_version" with
  | some (.strV v) => parseVersion v == parseVersion current_version
  | _ => false

/-- Whether the listing keeps a dataset directory: it must contain a `data`
entry, and pass the version check when that check is enabled. -/
def dirIncluded (current_version : String)
    (compatible_minari_version : Bool) (d : DatasetDir) : Bool :=
  d.entries.contains "data" &&
    (!compatible_minari_version ||
      (match d.mainData with
       | some md => versionIncluded md current_version
       | none => false))

/-- Whether the listing keeps a given id, resolved through the root. -/
def idIncluded (root : DatasetRoot) (current_version : String)
    (compatible_minari_version : Bool) (n : String) : Bool :=
  match findDir root n with
  | some d => dirIncluded current_version compatible_minari_version d
  | none => false

/-! ## Concrete instances for the scenarios and evaluations -/

/-- A five-step raw episode used by the concrete scenarios. -/
def raw5 : RawEpisode :=
  { observations := []
    actions := []
    rewards := [0, 0, 0, 0, 0]
    terminations := [false, false, false, false, true]
    truncations := [false, false, false, false, false] }

/-- The canonical record the ingestor produces from `raw5`. -/
def ep5 : EpisodeRecord :=
  { observations := []
    actions := []
    rewards := [0, 0, 0, 0, 0]
    terminations := [false, false, false, false, true]
    truncations := [false, false, false, false, false] }

/-- A buffer of ten five-step raw episodes. -/
def buf10 : List RawEpisode := List.replicate 10 raw5

/-- A backend holding ten five-step episodes. -/
def backend10 : Backend :=
  { episodes := List.replicate 10 ep5, total_episodes := 10, total_steps := 50 }

/-- The full-view handle over `backend10`. -/
def fullHandle10 : DatasetHandle :=
  { episode_indices := List.range 10, total_episodes := 10, total_steps := 50 }

/-- A backend holding twenty five-step episodes. -/
def backend20 : Backend :=
  { episodes := List.replicate 20 ep5, total_episodes := 20, total_steps := 100 }

/-- The full-view handle over `backend20`. -/
def fullHandle20 : DatasetHandle :=
  { episode_indices := List.range 20, total_episodes := 20, total_steps := 100 }

/-- The predicate keeping episodes with id at most six. -/
def predLe6 : Nat → EpisodeRecord → Bool := fun i _ => decide (i ≤ 6)

/-- The predicate keeping episodes with id at least three. -/
def predGe3 : Nat → EpisodeRecord → Bool := fun i _ => decide (3 ≤ i)

/-- The handle over `backend10` filtered to ids at most six. -/
def filtered10le6 : DatasetHandle := filter_episodes backend10 fullHandle10 predLe6

/-- The handle over `backend20` filtered to ids at most six. -/
def filtered20le6 : DatasetHandle := filter_episodes backend20 fullHandle20 predLe6

/-- A one-step episode record for the storage-layer evaluations. -/
def epA : EpisodeRecord :=
  { observations := [1], actions := [2], rewards := [3],
    terminations := [true], truncations := [false] }

/-- A complete, well-formed attribute map. -/
def goodAttrs : List (String × AttrVal) :=
  [("flatten_observation", .boolV false), ("flatten_action", .boolV false),
   ("env_spec", .strV "spec"), ("total_episodes", .intV 1),
   ("total_steps", .intV 1), ("dataset_name", .strV "ds")]

/-- A well-formed container holding one episode. -/
def fileA : H5File := { attrs := goodAttrs, episodes := [(0, epA)] }

/-- A filesystem with the well-formed container at path `p`. -/
def fsA : FileSystem := [("p", fileA)]

/-- The storage snapshot `__init__` builds from `fileA`. -/
def sA : MinariStorage :=
  { _data_path := "p"
    _flatten_observations := .boolV false
    _flatten_actions := .boolV false
    _env_spec := "spec"
    _total_episodes := 1
    _total_steps := 1
    _dataset_name := .strV "ds"
    _combined_datasets := none }

/-- A container missing its `total_episodes` attribute. -/
def fileC : H5File :=
  { attrs := [("flatten_observation", .boolV false),
              ("flatten_action", .boolV false), ("env_spec", .strV "s")]
    episodes := [] }

/-- A filesystem with the corrupt container at path `q`. -/
def fsC : FileSystem := [("q", fileC)]

/-- An empty backend for the append evaluation. -/
def backendE : Backend := { episodes := [], total_episodes := 0, total_steps := 0 }

/-- An empty-view handle over the empty backend. -/
def handleE : DatasetHandle :=
  { episode_indices := [], total_episodes := 0, total_steps := 0 }

/-- The backend after appending one five-step episode to `backendE`. -/
def backendE1 : Backend :=
  { episodes := [ep5], total_episodes := 1, total_steps := 5 }

/-- The handle after appending one five-step episode through `handleE`. -/
def handleE1 : DatasetHandle :=
  { episode_indices := [0], total_episodes := 1, total_steps := 5 }

/-- A world with two sibling handles over `backend10`. -/
def worldAB : World :=
  { backend := backend10
    handles := [("a", fullHandle10), ("b", filtered10le6)] }

/-- Metadata carrying a `minari_version` that parses equal to 1.0.0. -/
def mdCur : List (String × AttrVal) :=
  [("minari_version", .strV "1.0"), ("dataset_name", .strV "a-ds")]

/-- Metadata carrying an older `minari_version`. -/
def mdOld : List (String × AttrVal) :=
  [("minari_version", .strV "0.4.2"), ("dataset_name", .strV "b-ds")]

/-- A datasets root with a hidden directory, a matching dataset, an outdated
dataset, and a directory without a `data` entry. -/
def rootEx : DatasetRoot :=
  [{ dirName := "b-ds", entries := ["data"], mainData := some mdOld },
   { dirName := ".hidden", entries := ["data"], mainData := some mdCur },
   { dirName := "a-ds", entries := ["data"], mainData := some mdCur },
   { dirName := "c-no", entries := ["misc"], mainData := none }]

/-! ## Theorems -/

theorem ok_bind {β γ : Type} (x : β) (g : β → Except StorageErr γ) :
    (Except.ok x : Except StorageErr β) >>= g = g x := rfl

theorem error_bind {β γ : Type} (e : StorageErr)
    (g : β → Except StorageErr γ) :
    (Except.error e : Except StorageErr β) >>= g = .error e := rfl

theorem pure_ok {β : Type} (x : β) :
    (pure x : Except StorageErr β) = .ok x := rfl

theorem writeBuffer_ok : ∀ (buffer : List RawEpisode) (b b' : Backend)
    (ids : List Nat) (steps : Nat),
    writeBuffer b buffer = .ok (b', ids, steps) →
    b'.total_episodes = b.total_episodes + buffer.length ∧
    ids = List.range' b.total_episodes buffer.length := by
  intro buffer
  induction buffer with
  | nil =>
    intro b b' ids steps h
    unfold writeBuffer at h
    obtain hh := Except.ok.inj h
    injection hh with h1 h2
    injection h2 with h3 h4
    subst h1
    subst h3
    simp
  | cons raw rest ih =>
    intro b b' ids steps h
    unfold writeBuffer at h
    cases hi : ingest raw with
    | error e => rw [hi] at h; cases h
    | ok canon =>
      rw [hi] at h
      simp only [Backend.write_episode] at h
      cases hw : writeBuffer
          { episodes := b.episodes ++ [canon],
            total_episodes := b.total_episodes + 1,
            total_steps := b.total_steps + canon.rewards.length } rest with
      | error e => rw [hw] at h; cases h
      | ok t =>
        obtain ⟨b'', ids2, steps2⟩ := t
        rw [hw] at h
        obtain hh := Except.ok.inj h
        injection hh with h1 h2
        injection h2 with h3 h4
        subst h1
        subst h3
        obtain ⟨hbt, hids⟩ := ih _ _ _ _ hw
        refine ⟨by rw [hbt]; simp; omega, ?_⟩
        rw [hids]
        simp [List.range'_succ]

theorem update_ok_view (b : Backend) (h : DatasetHandle)
    (buffer : List RawEpisode) (b' : Backend) (h' : DatasetHandle)
    (hu : update_dataset_from_buffer b h buffer = .ok (b', h')) :
    b'.total_episodes = b.total_episodes + buffer.length ∧
    h'.episode_indices =
      h.episode_indices ++ List.range' b.total_episodes buffer.length ∧
    h'.total_episodes = h.total_episodes + buffer.length := by
  unfold update_dataset_from_buffer at hu
  cases hw : writeBuffer b buffer with
  | error e => rw [hw] at hu; cases hu
  | ok t =>
    obtain ⟨b'', ids, steps⟩ := t
    rw [hw] at hu
    obtain ⟨hbt, hids⟩ := writeBuffer_ok buffer b b'' ids steps hw
    obtain hh := Except.ok.inj hu
    injection hh with h1 h2
    subst h1
    subst h2
    refine ⟨hbt, by rw [hids], ?_⟩
    simp [hids]

/-- C1: after a successful `update_dataset_from_buffer` the backend's total
episode count grows by the buffer length, the handle's view grows by the
buffer length, and the newly appended view members are exactly the
contiguous id range starting at the old backend total, in assignment
order. -/
theorem C1_update_from_buffer (b : Backend) (h : DatasetHandle)
    (buffer : List RawEpisode) (b' : Backend) (h' : DatasetHandle)
    (hu : update_dataset_from_buffer b h buffer = .ok (b', h')) :
    b'.total_episodes = b.total_episodes + buffer.length ∧
    h'.episode_indices.length = h.episode_indices.length + buffer.length ∧
    h'.episode_indices =
      h.episode_indices ++ List.range' b.total_episodes buffer.length := by
  obtain ⟨hbt, hview, _⟩ := update_ok_view b h buffer b' h' hu
  exact ⟨hbt, by simp [hview], hview⟩

/-- Evaluation of `C1_update_from_buffer` on a one-episode buffer appended
through an empty handle. -/
theorem C1_witness :
    backendE1.total_episodes = backendE.total_episodes + 1 ∧
    handleE1.episode_indices.length = handleE.episode_indices.length + 1 ∧
    handleE1.episode_indices =
      handleE.episode_indices ++ List.range' backendE.total_episodes 1 :=
  C1_update_from_buffer backendE handleE [raw5] backendE1 handleE1 rfl

/-- C2 as stated is false: if the backend already holds 20 episodes when the
handle is filtered to ids at most 6, an appended 10-episode buffer receives
the ids 20..29, so the view becomes {0..6, 20..29} rather than the claimed
{0..6, 10..19}; a second append then brings the backend's global total to
40, not 30. -/
theorem C2_counterexample :
    (update_dataset_from_buffer backend20 filtered20le6 buf10).toOption.map
        (fun x => (x.2.episode_indices, x.2.total_episodes, x.2.total_steps)) =
      some ([0, 1, 2, 3, 4, 5, 6,
             20, 21, 22, 23, 24, 25, 26, 27, 28, 29], 17, 85) ∧
    ([0, 1, 2, 3, 4, 5, 6, 20, 21, 22, 23, 24, 25, 26, 27, 28, 29] : List Nat) ≠
      [0, 1, 2, 3, 4, 5, 6, 10, 11, 12, 13, 14, 15, 16, 17, 18, 19] ∧
    ((update_dataset_from_buffer backend20 filtered20le6 buf10).toOption.bind
        (fun x => (update_dataset_from_buffer x.1 x.2 buf10).toOption)).map
        (fun x => x.1.total_episodes) = some 40 :=
  ⟨rfl, by decide, rfl⟩

/-- C2 amended: the filter to ids at most 6 happens while the backend holds
10 episodes of 5 steps each; the first 10-episode append then brings the
backend to 20 episodes and the filtered handle's view to {0..6, 10..19}
with 17 episodes and 85 steps, and the second append yields the view
{0..6, 10..29} with 27 episodes and 135 steps while the backend's global
total reaches 30. -/
theorem C2_amended_scenario :
    (update_dataset_from_buffer backend10 filtered10le6 buf10).toOption.map
        (fun x => (x.1.total_episodes, x.2.episode_indices,
                   x.2.total_episodes, x.2.total_steps)) =
      some (20, [0, 1, 2, 3, 4, 5, 6,
                 10, 11, 12, 13, 14, 15, 16, 17, 18, 19], 17, 85) ∧
    ((update_dataset_from_buffer backend10 filtered10le6 buf10).toOption.bind
        (fun x => (update_dataset_from_buffer x.1 x.2 buf10).toOption)).map
        (fun x => (x.1.total_episodes, x.2.episode_indices,
                   x.2.total_episodes, x.2.total_steps)) =
      some (30, [0, 1, 2, 3, 4, 5, 6, 10, 11, 12, 13, 14, 15, 16, 17, 18, 19,
                 20, 21, 22, 23, 24, 25, 26, 27, 28, 29], 27, 135) :=
  ⟨rfl, rfl⟩

theorem find?_map_replace (l : List (String × DatasetHandle)) (nm : String)
    (h' : DatasetHandle) :
    ∀ e, l.find? (fun p => p.1 == nm) = some e →
      (l.map (fun p => if p.1 == nm then (p.1, h') else p)).find?
        (fun p => p.1 == nm) = some (e.1, h') := by
  induction l with
  | nil => intro e he; simp at he
  | cons q qs ih =>
    intro e he
    by_cases hq : (q.1 == nm) = true
    · simp only [List.find?_cons, hq] at he
      obtain rfl := Option.some.inj he
      have hq' : q.1 = nm := by simpa using hq
      simp [List.find?_cons, hq']
    · have hqf : (q.1 == nm) = false := by simpa using hq
      simp only [List.find?_cons, hqf] at he
      simp only [List.map_cons, hqf, Bool.false_eq_true, if_false,
        List.find?_cons]
      exact ih e he

theorem find?_map_replace_ne (l : List (String × DatasetHandle))
    (nm s : String) (h' : DatasetHandle) (hne : s ≠ nm) :
    (l.map (fun p => if p.1 == nm then (p.1, h') else p)).find?
        (fun p => p.1 == s) =
      l.find? (fun p => p.1 == s) := by
  induction l with
  | nil => rfl
  | cons q qs ih =>
    by_cases hq : (q.1 == nm) = true
    · have hq' : q.1 = nm := by simpa using hq
      have hs : (q.1 == s) = false := by
        simp only [hq', beq_eq_false_iff_ne]
        exact fun hcontra => hne hcontra.symm
      simp only [List.map_cons, hq, if_true, List.find?_cons, hs]
      exact ih
    · have hqf : (q.1 == nm) = false := by simpa using hq
      simp only [List.map_cons, hqf, Bool.false_eq_true, if_false,
        List.find?_cons]
      by_cases hs : (q.1 == s) = true
      · simp [hs]
      · have hsf : (q.1 == s) = false := by simpa using hs
        simp only [hsf]
        exact ih

/-- C3: an append performed through one named handle of a world leaves every
sibling handle's entry — its view member ids and its reported totals —
exactly as it was, while the acting handle's view is extended with the newly
assigned id range and the shared backend's total grows. -/
theorem C3_append_frame (w : World) (nm s : String) (buffer : List RawEpisode)
    (w' : World) (H S : DatasetHandle)
    (hupd : w.update_via nm buffer = .ok w')
    (hH : lookupHandle w nm = some H)
    (hS : lookupHandle w s = some S) (hne : s ≠ nm) :
    lookupHandle w' s = some S ∧
    w'.backend.total_episodes = w.backend.total_episodes + buffer.length ∧
    ∃ h', lookupHandle w' nm = some h' ∧
      h'.episode_indices =
        H.episode_indices ++ List.range' w.backend.total_episodes buffer.length := by
  simp only [World.update_via, hH] at hupd
  cases hu : update_dataset_from_buffer w.backend H buffer with
  | error e => simp only [hu] at hupd; cases hupd
  | ok bh =>
    obtain ⟨b', h'⟩ := bh
    simp only [hu] at hupd
    obtain rfl := (Except.ok.inj hupd).symm
    obtain ⟨hbt, hview, _⟩ := update_ok_view w.backend H buffer b' h' hu
    refine ⟨?_, hbt, h', ?_, hview⟩
    · unfold lookupHandle at hS ⊢
      rw [find?_map_replace_ne w.handles nm s h' hne]
      exact hS
    · unfold lookupHandle at hH ⊢
      cases hfe : w.handles.find? (fun p => p.1 == nm) with
      | none => rw [hfe] at hH; cases hH
      | some e => rw [find?_map_replace w.handles nm h' e hfe]; rfl

/-- Evaluation of `C3_append_frame`: in the two-handle world, appending ten
episodes through handle `a` leaves handle `b`'s entry untouched. -/
theorem C3_witness :
    (World.update_via worldAB "a" buf10).toOption.map
        (fun w => lookupHandle w "b") = some (some filtered10le6) ∧
    lookupHandle
        ((World.update_via worldAB "a" buf10).toOption.getD worldAB) "b" =
      some filtered10le6 := by
  have h := C3_append_frame worldAB "a" "b" buf10
    ((World.update_via worldAB "a" buf10).toOption.getD worldAB)
    fullHandle10 filtered10le6 (by rfl) rfl rfl (by decide)
  exact ⟨rfl, h.1⟩

theorem pickMany_mem : ∀ (k : Nat) (xs rs : List Nat),
    ∀ y ∈ pickMany k xs rs, y ∈ xs := by
  intro k
  induction k with
  | zero => intro xs rs y hy; simp [pickMany] at hy
  | succ k ih =>
    intro xs rs y hy
    cases xs with
    | nil => simp [pickMany] at hy
    | cons x xs' =>
      simp only [pickMany, pickIndex] at hy
      rcases List.mem_cons.mp hy with h1 | h2
      · have hlt : (rs.headD 0) % (x :: xs').length < (x :: xs').length :=
          Nat.mod_lt _ (by simp)
        rw [h1, List.getD_eq_getElem _ _ hlt]
        exact List.getElem_mem hlt
      · exact (List.eraseIdx_sublist (x :: xs') _).mem (ih _ _ _ h2)

/-- C6: on a handle obtained by `filter_episodes`, sampling more episodes
than the filtered view holds always fails with the sampling error, and every
id a successful sample returns is a member of the filtered view. -/
theorem C6_sample_bounds (b : Backend) (h : DatasetHandle)
    (pred : Nat → EpisodeRecord → Bool) (k : Nat) (rs : List Nat) :
    ((filter_episodes b h pred).episode_indices.length < k →
      sample_episodes (filter_episodes b h pred) k rs =
        .error .samplingError) ∧
    (∀ ids, sample_episodes (filter_episodes b h pred) k rs = .ok ids →
      ∀ i ∈ ids, i ∈ (filter_episodes b h pred).episode_indices) := by
  constructor
  · intro hk
    unfold sample_episodes
    rw [if_pos hk]
  · intro ids hok i hi
    unfold sample_episodes at hok
    by_cases hk : (filter_episodes b h pred).episode_indices.length < k
    · rw [if_pos hk] at hok; cases hok
    · rw [if_neg hk] at hok
      obtain rfl := (Except.ok.inj hok).symm
      exact pickMany_mem k _ rs i hi

/-- Evaluation of `C6_sample_bounds` on the ten-episode backend filtered to
ids at least three: a request for eight episodes fails, and a sampled id
lies in the filtered view. -/
theorem C6_witness :
    sample_episodes (filter_episodes backend10 fullHandle10 predGe3) 8 [0] =
      .error .samplingError ∧
    8 ∈ (filter_episodes backend10 fullHandle10 predGe3).episode_indices :=
  ⟨(C6_sample_bounds backend10 fullHandle10 predGe3 8 [0]).1 (by decide),
   (C6_sample_bounds backend10 fullHandle10 predGe3 2 [5, 11]).2
     [8, 9] rfl 8 (by decide)⟩

theorem runRead_snd (fs : FileSystem) (s : MinariStorage) (op : ReadOp) :
    (runRead fs s op).2 = fs := by
  cases op <;> rfl

/-- C8: a sequence of read operations (episode reads, applies, metadata
accessor reads), each through its own storage handle, leaves the filesystem
— the persisted episodes and aggregate counters — exactly as it was, and
every operation returns the same result it would return running alone
against the initial state. -/
theorem C8_reads_pure (fs : FileSystem)
    (ops : List (MinariStorage × ReadOp)) :
    runReads fs ops = (ops.map (fun so => (runRead fs so.1 so.2).1), fs) := by
  induction ops with
  | nil => rfl
  | cons so rest ih =>
    obtain ⟨s, op⟩ := so
    simp only [runReads, runRead_snd, List.map_cons, ih]

theorem openStorage_ok_fields (fs : FileSystem) (p : String)
    (s : MinariStorage) (h : openStorage fs p = .ok s) :
    ∃ f, lookupFile fs p = some f ∧
      s._data_path = p ∧
      s._combined_datasets = lookupAttr f "combined_datasets" ∧
      lookupAttr f "flatten_observation" = some s._flatten_observations ∧
      lookupAttr f "flatten_action" = some s._flatten_actions ∧
      (∃ es, lookupAttr f "env_spec" = some es ∧
        envSpecFromJson es = some s._env_spec) ∧
      lookupAttr f "total_episodes" = some (.intV s._total_episodes) ∧
      lookupAttr f "total_steps" = some (.intV s._total_steps) ∧
      lookupAttr f "dataset_name" = some s._dataset_name := by
  unfold openStorage at h
  cases hlf : lookupFile fs p with
  | none => rw [hlf] at h; simp only [getOrE, error_bind] at h; cases h
  | some f =>
    rw [hlf] at h
    simp only [getOrE, ok_bind] at h
    cases h1 : lookupAttr f "flatten_observation" with
    | none => rw [h1] at h; simp only [getOrE, error_bind] at h; cases h
    | some fo =>
    rw [h1] at h
    simp only [getOrE, ok_bind] at h
    cases h2 : lookupAttr f "flatten_action" with
    | none => rw [h2] at h; simp only [getOrE, error_bind] at h; cases h
    | some fa =>
    rw [h2] at h
    simp only [getOrE, ok_bind] at h
    cases h3 : lookupAttr f "env_spec" with
    | none => rw [h3] at h; simp only [getOrE, error_bind] at h; cases h
    | some es =>
    rw [h3] at h
    simp only [getOrE, ok_bind] at h
    cases h4 : envSpecFromJson es with
    | none => rw [h4] at h; simp only [getOrE, error_bind] at h; cases h
    | some espec =>
    rw [h4] at h
    simp only [getOrE, ok_bind] at h
    cases h5 : lookupAttr f "total_episodes" with
    | none => rw [h5] at h; simp only [getOrE, error_bind] at h; cases h
    | some te =>
    rw [h5] at h
    simp only [getOrE, ok_bind] at h
    cases te with
    | strV s2 => simp only [assertInt, error_bind] at h; cases h
    | boolV b2 => simp only [assertInt, error_bind] at h; cases h
    | strListV l2 => simp only [assertInt, error_bind] at h; cases h
    | intV nte =>
    simp only [assertInt, ok_bind] at h
    cases h6 : lookupAttr f "total_steps" with
    | none => rw [h6] at h; simp only [getOrE, error_bind] at h; cases h
    | some ts =>
    rw [h6] at h
    simp only [getOrE, ok_bind] at h
    cases ts with
    | strV s3 => simp only [assertInt, error_bind] at h; cases h
    | boolV b3 => simp only [assertInt, error_bind] at h; cases h
    | strListV l3 => simp only [assertInt, error_bind] at h; cases h
    | intV nts =>
    simp only [assertInt, ok_bind] at h
    cases h7 : lookupAttr f "dataset_name" with
    | none => rw [h7] at h; simp only [getOrE, error_bind] at h; cases h
    | some dn =>
    rw [h7] at h
    simp only [getOrE, ok_bind, pure_ok] at h
    obtain rfl := (Except.ok.inj h).symm
    exact ⟨f, rfl, rfl, rfl, h1, h2, ⟨es, h3, h4⟩, h5, h6, h7⟩

/-- C5: opening a backend whose container is missing fails with the
not-found error, and opening a container with a required root attribute
absent or failing its validation (the env-spec parse, or the integer
assertions on the totals) fails with an error of the corrupt-format class —
in both cases an immediately returned typed error, never a success. -/
theorem C5_open_errors (fs : FileSystem) (p : String) :
    (lookupFile fs p = none → openStorage fs p = .error .notFound) ∧
    (∀ f, lookupFile fs p = some f → requiredProblem f →
      ∃ e, openStorage fs p = .error e ∧ isCorruptErr e = true) := by
  constructor
  · intro hnone
    unfold openStorage
    rw [hnone]
    simp only [getOrE, error_bind]
  · intro f hf hbad
    unfold openStorage
    rw [hf]
    simp only [getOrE, ok_bind]
    cases h1 : lookupAttr f "flatten_observation" with
    | none => exact ⟨.missingAttr "flatten_observation", by simp only [getOrE, error_bind], rfl⟩
    | some fo =>
    simp only [getOrE, ok_bind]
    cases h2 : lookupAttr f "flatten_action" with
    | none => exact ⟨.missingAttr "flatten_action", by simp only [getOrE, error_bind], rfl⟩
    | some fa =>
    simp only [getOrE, ok_bind]
    cases h3 : lookupAttr f "env_spec" with
    | none => exact ⟨.missingAttr "env_spec", by simp only [getOrE, error_bind], rfl⟩
    | some es =>
    simp only [getOrE, ok_bind]
    cases h4 : envSpecFromJson es with
    | none => exact ⟨.malformedAttr "env_spec", by simp only [getOrE, error_bind], rfl⟩
    | some espec =>
    simp only [getOrE, ok_bind]
    cases h5 : lookupAttr f "total_episodes" with
    | none => exact ⟨.missingAttr "total_episodes", by simp only [getOrE, error_bind], rfl⟩
    | some te =>
    simp only [getOrE, ok_bind]
    cases te with
    | strV s2 => exact ⟨.malformedAttr "total_episodes", by simp only [assertInt, error_bind], rfl⟩
    | boolV b2 => exact ⟨.malformedAttr "total_episodes", by simp only [assertInt, error_bind], rfl⟩
    | strListV l2 => exact ⟨.malformedAttr "total_episodes", by simp only [assertInt, error_bind], rfl⟩
    | intV nte =>
    simp only [assertInt, ok_bind]
    cases h6 : lookupAttr f "total_steps" with
    | none => exact ⟨.missingAttr "total_steps", by simp only [getOrE, error_bind], rfl⟩
    | some ts =>
    simp only [getOrE, ok_bind]
    cases ts with
    | strV s3 => exact ⟨.malformedAttr "total_steps", by simp only [assertInt, error_bind], rfl⟩
    | boolV b3 => exact ⟨.malformedAttr "total_steps", by simp only [assertInt, error_bind], rfl⟩
    | strListV l3 => exact ⟨.malformedAttr "total_steps", by simp only [assertInt, error_bind], rfl⟩
    | intV nts =>
    simp only [assertInt, ok_bind]
    cases h7 : lookupAttr f "dataset_name" with
    | none => exact ⟨.missingAttr "dataset_name", by simp only [getOrE, error_bind], rfl⟩
    | some dn =>
    exfalso
    rcases hbad with ⟨k, hk, hkn⟩ | ⟨v, hv, hvm⟩ | ⟨v, hv, hvm⟩ | ⟨v, hv, hvm⟩
    · simp only [requiredAttrNames, List.mem_cons, List.not_mem_nil,
        or_false] at hk
      rcases hk with rfl | rfl | rfl | rfl | rfl | rfl <;> simp_all
    · rw [h3] at hv
      obtain rfl := Option.some.inj hv
      rw [h4] at hvm
      cases hvm
    · rw [h5] at hv
      obtain rfl := (Option.some.inj hv).symm
      exact hvm nte rfl
    · rw [h6] at hv
      obtain rfl := (Option.some.inj hv).symm
      exact hvm nts rfl

/-- Evaluation of `C5_open_errors`: opening a path with no container fails
not-found; opening a container lacking `total_episodes` fails in the
corrupt-format class. -/
theorem C5_witness :
    openStorage [] "p" = .error .notFound ∧
    ∃ e, openStorage fsC "q" = .error e ∧ isCorruptErr e = true :=
  ⟨(C5_open_errors [] "p").1 rfl,
   (C5_open_errors fsC "q").2 fileC rfl
     (Or.inl ⟨"total_episodes", by decide, rfl⟩)⟩

/-- C7: a backend whose stored metadata carries no `combined_datasets`
attribute reports the empty list from its `combined_datasets` accessor. -/
theorem C7_combined_default (fs : FileSystem) (p : String)
    (s : MinariStorage) (f : H5File)
    (hopen : openStorage fs p = .ok s)
    (hf : lookupFile fs p = some f)
    (hnone : lookupAttr f "combined_datasets" = none) :
    MinariStorage.combined_datasets s = .strListV [] := by
  obtain ⟨f', hf', _, hcomb, _⟩ := openStorage_ok_fields fs p s hopen
  rw [hf] at hf'
  obtain rfl := Option.some.inj hf'
  unfold MinariStorage.combined_datasets
  rw [hcomb, hnone]

/-- Evaluation of `C7_combined_default` on the container without a
`combined_datasets` attribute. -/
theorem C7_witness : MinariStorage.combined_datasets sA = .strListV [] :=
  C7_combined_default fsA "p" sA fileA rfl rfl rfl

theorem lookupEpisode_ge_none (f : H5File) (n i : Nat)
    (hbound : ∀ q ∈ f.episodes, q.1 < n) (hge : n ≤ i) :
    lookupEpisode f i = none := by
  unfold lookupEpisode
  rw [List.find?_eq_none.mpr]
  · rfl
  · intro q hq hpq
    have hqi : q.1 = i := by simpa using hpq
    have := hbound q hq
    omega

/-- C4: reading an episode whose id is at least the backend's total episode
count fails with the invalid-index error (the missing episode group), while
reading any id below the total returns the full stored record. -/
theorem C4_read_episode (fs : FileSystem) (s : MinariStorage) (f : H5File)
    (n i : Nat)
    (hf : lookupFile fs s._data_path = some f)
    (hn : s.total_episodes = (n : Int))
    (hbound : ∀ q ∈ f.episodes, q.1 < n)
    (hcover : ∀ j, j < n → (lookupEpisode f j).isSome = true) :
    (n ≤ i →
      MinariStorage.get_episodes fs s [i] = .error (.invalidIndex i)) ∧
    (i < n → ∃ r, lookupEpisode f i = some r ∧
      MinariStorage.get_episodes fs s [i] = .ok [r]) := by
  constructor
  · intro hge
    unfold MinariStorage.get_episodes
    rw [hf]
    simp only [readMap, lookupEpisode_ge_none f n i hbound hge]
  · intro hlt
    obtain ⟨r, hr⟩ := Option.isSome_iff_exists.mp (hcover i hlt)
    refine ⟨r, hr, ?_⟩
    unfold MinariStorage.get_episodes
    rw [hf]
    simp only [readMap, hr]

/-- Evaluation of `C4_read_episode` on the one-episode container: index 5 is
rejected with the invalid-index error and index 0 yields the stored
record. -/
theorem C4_witness :
    MinariStorage.get_episodes fsA sA [5] = .error (.invalidIndex 5) ∧
    ∃ r, lookupEpisode fileA 0 = some r ∧
      MinariStorage.get_episodes fsA sA [0] = .ok [r] :=
  ⟨(C4_read_episode fsA sA fileA 1 5 rfl rfl (by decide) (by decide)).1
     (by decide),
   (C4_read_episode fsA sA fileA 1 0 rfl rfl (by decide) (by decide)).2
     (by decide)⟩

theorem lookupKey_cons_self (t : List (String × AttrVal)) (k : String)
    (v : AttrVal) : lookupKey ((k, v) :: t) k = some v := by
  simp [lookupKey, List.find?_cons]

theorem lookupKey_cons_ne (t : List (String × AttrVal)) (a : String)
    (b : AttrVal) (k : String) (h : ¬ a = k) :
    lookupKey ((a, b) :: t) k = lookupKey t k := by
  have hf : (a == k) = false := by simpa using h
  simp [lookupKey, List.find?_cons, hf]

theorem lookupKey_filter_ne (l : List (String × AttrVal)) (k k' : String)
    (hne : ¬ k = k') :
    lookupKey (l.filter (fun q => !(q.1 == k'))) k = lookupKey l k := by
  induction l with
  | nil => rfl
  | cons q qs ih =>
    obtain ⟨a, b⟩ := q
    by_cases hq : (a == k') = true
    · have ha : a = k' := by simpa using hq
      have hak : ¬ a = k := by rw [ha]; exact fun hc => hne hc.symm
      simp only [List.filter_cons, hq, Bool.not_true, Bool.false_eq_true,
        if_false]
      rw [ih, lookupKey_cons_ne qs a b k hak]
    · have hqf : (a == k') = false := by simpa using hq
      simp only [List.filter_cons, hqf, Bool.not_false, if_true]
      by_cases hak : a = k
      · subst hak
        rw [lookupKey_cons_self, lookupKey_cons_self]
      · rw [lookupKey_cons_ne _ a b k hak, lookupKey_cons_ne qs a b k hak]
        exact ih

theorem lookupKey_setAttr_self (l : List (String × AttrVal)) (k : String)
    (v : AttrVal) : lookupKey (setAttr l k v) k = some v := by
  unfold setAttr
  exact lookupKey_cons_self _ k v

theorem lookupKey_setAttr_ne (l : List (String × AttrVal)) (k k' : String)
    (v : AttrVal) (hne : ¬ k = k') :
    lookupKey (setAttr l k' v) k = lookupKey l k := by
  unfold setAttr
  rw [lookupKey_cons_ne _ k' v k (fun hc => hne hc.symm)]
  exact lookupKey_filter_ne l k k' hne

theorem lookupFile_growContainer (fs : FileSystem) (p : String)
    (r : EpisodeRecord) :
    lookupFile (growContainer fs p r) p =
      (lookupFile fs p).map (fun f => writeEpisodeToFile f r) := by
  unfold growContainer
  induction fs with
  | nil => rfl
  | cons q qs ih =>
    by_cases hq : (q.1 == p) = true
    · simp only [List.map_cons, hq, if_true, lookupFile, List.find?_cons, hq]
      rfl
    · have hqf : (q.1 == p) = false := by simpa using hq
      simp only [List.map_cons, hqf, Bool.false_eq_true, if_false,
        lookupFile, List.find?_cons, hqf]
      exact ih

theorem attrInt_eq (l : List (String × AttrVal)) (k : String) (n : Int)
    (hn : lookupKey l k = some (.intV n)) : attrInt l k = n := by
  unfold attrInt
  rw [hn]

theorem writeEpisodeToFile_total (f : H5File) (r : EpisodeRecord) (n : Int)
    (hn : lookupAttr f "total_episodes" = some (.intV n)) :
    lookupAttr (writeEpisodeToFile f r) "total_episodes" =
      some (.intV (n + 1)) := by
  unfold writeEpisodeToFile lookupAttr
  rw [attrInt_eq f.attrs "total_episodes" n hn]
  rw [lookupKey_setAttr_ne _ "total_episodes" "total_steps" _ (by decide)]
  exact lookupKey_setAttr_self _ _ _

theorem writeEpisodeToFile_steps (f : H5File) (r : EpisodeRecord) (st : Int)
    (hst : lookupAttr f "total_steps" = some (.intV st)) :
    lookupAttr (writeEpisodeToFile f r) "total_steps" =
      some (.intV (st + r.rewards.length)) := by
  unfold writeEpisodeToFile lookupAttr
  rw [attrInt_eq f.attrs "total_steps" st hst]
  exact lookupKey_setAttr_self _ _ _

/-- C10: the metadata accessors of an opened storage object — the totals,
the name, the env spec, the flatten flags and `combined_datasets` — return
the attribute values read at open time; growing the underlying container by
another writer advances the persisted counters but does not change the
values the opened object's accessors return. -/
theorem C10_snapshot (fs : FileSystem) (p : String) (s : MinariStorage)
    (f : H5File) (r : EpisodeRecord)
    (hopen : openStorage fs p = .ok s)
    (hf : lookupFile fs p = some f) :
    lookupAttr f "total_episodes" = some (.intV s.total_episodes) ∧
    lookupAttr f "total_steps" = some (.intV s.total_steps) ∧
    lookupAttr f "dataset_name" = some s.name ∧
    lookupAttr f "flatten_observation" = some s.flatten_observations ∧
    lookupAttr f "flatten_action" = some s.flatten_actions ∧
    (∃ es, lookupAttr f "env_spec" = some es ∧
      envSpecFromJson es = some s.env_spec) ∧
    MinariStorage.combined_datasets s =
      (lookupAttr f "combined_datasets").getD (.strListV []) ∧
    lookupFile (growContainer fs p r) p = some (writeEpisodeToFile f r) ∧
    lookupAttr (writeEpisodeToFile f r) "total_episodes" =
      some (.intV (s.total_episodes + 1)) ∧
    lookupAttr (writeEpisodeToFile f r) "total_steps" =
      some (.intV (s.total_steps + r.rewards.length)) ∧
    lookupAttr (writeEpisodeToFile f r) "combined_datasets" =
      lookupAttr f "combined_datasets" := by
  obtain ⟨f', hf', _, hcomb, hfo, hfa, hes, hte, hts, hdn⟩ :=
    openStorage_ok_fields fs p s hopen
  rw [hf] at hf'
  obtain rfl := Option.some.inj hf'
  refine ⟨hte, hts, hdn, hfo, hfa, hes, ?_, ?_, ?_, ?_, ?_⟩
  · unfold MinariStorage.combined_datasets
    rw [hcomb]
    cases lookupAttr f "combined_datasets" <;> rfl
  · rw [lookupFile_growContainer, hf]
    rfl
  · exact writeEpisodeToFile_total f r _ hte
  · exact writeEpisodeToFile_steps f r _ hts
  · unfold writeEpisodeToFile lookupAttr
    rw [lookupKey_setAttr_ne _ "combined_datasets" "total_steps" _ (by decide)]
    rw [lookupKey_setAttr_ne _ "combined_datasets" "total_episodes" _
      (by decide)]

/-- Evaluation of `C10_snapshot` on the one-episode container: the opened
snapshot reports one episode while the grown container's counter reads
two. -/
theorem C10_witness :
    lookupAttr fileA "total_episodes" = some (.intV sA.total_episodes) ∧
    lookupAttr fileA "total_steps" = some (.intV sA.total_steps) ∧
    lookupAttr fileA "dataset_name" = some sA.name ∧
    lookupAttr fileA "flatten_observation" = some sA.flatten_observations ∧
    lookupAttr fileA "flatten_action" = some sA.flatten_actions ∧
    (∃ es, lookupAttr fileA "env_spec" = some es ∧
      envSpecFromJson es = some sA.env_spec) ∧
    MinariStorage.combined_datasets sA =
      (lookupAttr fileA "combined_datasets").getD (.strListV []) ∧
    lookupFile (growContainer fsA "p" epA) "p" =
      some (writeEpisodeToFile fileA epA) ∧
    lookupAttr (writeEpisodeToFile fileA epA) "total_episodes" =
      some (.intV (sA.total_episodes + 1)) ∧
    lookupAttr (writeEpisodeToFile fileA epA) "total_steps" =
      some (.intV (sA.total_steps + epA.rewards.length)) ∧
    lookupAttr (writeEpisodeToFile fileA epA) "combined_datasets" =
      lookupAttr fileA "combined_datasets" :=
  C10_snapshot fsA "p" sA fileA epA rfl rfl

theorem insertSorted_perm (x : String) (l : List String) :
    (insertSorted x l).Perm (x :: l) := by
  induction l with
  | nil => exact List.Perm.refl _
  | cons y ys ih =>
    unfold insertSorted
    by_cases h : x ≤ y
    · rw [if_pos h]
    · rw [if_neg h]
      exact (ih.cons y).trans (List.Perm.swap x y ys)

theorem sortStrings_perm (l : List String) : (sortStrings l).Perm l := by
  induction l with
  | nil => exact List.Perm.refl _
  | cons x xs ih =>
    exact (insertSorted_perm x (sortStrings xs)).trans (ih.cons x)

theorem insertSorted_sorted (x : String) (l : List String)
    (h : l.Sorted (· ≤ ·)) : (insertSorted x l).Sorted (· ≤ ·) := by
  induction l with
  | nil => simp [insertSorted]
  | cons y ys ih =>
    rw [List.sorted_cons] at h
    obtain ⟨hy, hys⟩ := h
    unfold insertSorted
    by_cases hxy : x ≤ y
    · rw [if_pos hxy, List.sorted_cons]
      refine ⟨?_, ?_⟩
      · intro b hb
        rcases List.mem_cons.mp hb with rfl | hb'
        · exact hxy
        · exact le_trans hxy (hy b hb')
      · rw [List.sorted_cons]
        exact ⟨hy, hys⟩
    · rw [if_neg hxy, List.sorted_cons]
      refine ⟨?_, ih hys⟩
      intro b hb
      rcases List.mem_cons.mp ((insertSorted_perm x ys).subset hb) with rfl | hb'
      · exact le_of_not_le hxy
      · exact hy b hb'

theorem sortStrings_sorted (l : List String) :
    (sortStrings l).Sorted (· ≤ ·) := by
  induction l with
  | nil => simp [sortStrings]
  | cons x xs ih => exact insertSorted_sorted x (sortStrings xs) ih

theorem findDir_nodup (root : DatasetRoot) (d : DatasetDir)
    (hnd : (root.map DatasetDir.dirName).Nodup) (hd : d ∈ root) :
    findDir root d.dirName = some d := by
  induction root with
  | nil => cases hd
  | cons q qs ih =>
    rw [List.map_cons, List.nodup_cons] at hnd
    obtain ⟨hq, hqs⟩ := hnd
    rcases List.mem_cons.mp hd with rfl | hd'
    · simp [findDir, List.find?_cons]
    · have hne : (q.dirName == d.dirName) = false := by
        simp only [beq_eq_false_iff_ne]
        intro hcontra
        exact hq (hcontra ▸ List.mem_map_of_mem DatasetDir.dirName hd')
      simp only [findDir, List.find?_cons, hne]
      simpa [findDir] using ih hqs hd'

theorem idIncluded_eq (root : DatasetRoot) (cur : String) (compat : Bool)
    (n : String) (d : DatasetDir) (hd : findDir root n = some d) :
    idIncluded root cur compat n = dirIncluded cur compat d := by
  unfold idIncluded
  rw [hd]

theorem dirIncluded_iff (cur : String) (compat : Bool) (d : DatasetDir) :
    dirIncluded cur compat d = true ↔
      (d.entries.contains "data" = true ∧
        (compat = true → ∃ md v, d.mainData = some md ∧
          lookupKey md "minari_version" = some (.strV v) ∧
          parseVersion v = parseVersion cur)) := by
  unfold dirIncluded
  cases compat with
  | false => simp
  | true =>
    simp only [Bool.not_true, Bool.false_or, Bool.and_eq_true, true_implies]
    cases hmd : d.mainData with
    | none => simp
    | some md =>
      unfold versionIncluded
      cases hv : lookupKey md "minari_version" with
      | none => simp [hv]
      | some v =>
        cases v with
        | strV vs => simp [hv, beq_iff_eq]
        | intV n2 => simp [hv]
        | boolV b2 => simp [hv]
        | strListV l2 => simp [hv]

theorem collectDatasets_spec (root : DatasetRoot) (cur : String)
    (compat : Bool) :
    ∀ ids : List String,
    (∀ i ∈ ids, ∃ d, findDir root i = some d ∧ dirWF compat d = true) →
    ∃ l, collectDatasets root cur compat ids = .ok l ∧
      l.map Prod.fst = ids.filter (idIncluded root cur compat) := by
  intro ids
  induction ids with
  | nil => intro _; exact ⟨[], rfl, rfl⟩
  | cons i rest ih =>
    intro hwf
    obtain ⟨d, hd, hdwf⟩ := hwf i (List.mem_cons_self i rest)
    obtain ⟨l, hl, hmap⟩ := ih (fun j hj => hwf j (List.mem_cons_of_mem i hj))
    unfold collectDatasets
    rw [hd]
    cases hdata : d.entries.contains "data" with
    | false =>
      have hinc : idIncluded root cur compat i = false := by
        rw [idIncluded_eq root cur compat i d hd]
        unfold dirIncluded
        rw [hdata]
        rfl
      simp only [hdata, Bool.false_eq_true, if_false, List.filter_cons, hinc]
      exact ⟨l, hl, hmap⟩
    | true =>
      simp only [dirWF, hdata, Bool.not_true, Bool.false_or] at hdwf
      cases hmd : d.mainData with
      | none => rw [hmd] at hdwf; cases hdwf
      | some md =>
        rw [hmd] at hdwf
        simp only [hdata, if_true, hmd]
        cases compat with
        | false =>
          have hinc : idIncluded root cur false i = true := by
            rw [idIncluded_eq root cur false i d hd]
            unfold dirIncluded
            rw [hdata, hmd]
            rfl
          simp only [Bool.false_eq_true, if_false]
          rw [hl]
          refine ⟨(i, md) :: l, rfl, ?_⟩
          simp only [List.map_cons, List.filter_cons, hinc, if_true, hmap]
        | true =>
          simp only [Bool.not_true, Bool.false_or] at hdwf
          simp only [if_true]
          cases hv : lookupKey md "minari_version" with
          | none => rw [hv] at hdwf; cases hdwf
          | some v =>
            rw [hv] at hdwf
            cases v with
            | intV n2 => cases hdwf
            | boolV b2 => cases hdwf
            | strListV l2 => cases hdwf
            | strV vs =>
              simp only [hv]
              by_cases hpv : parseVersion vs = parseVersion cur
              · have hinc : idIncluded root cur true i = true := by
                  rw [idIncluded_eq root cur true i d hd]
                  unfold dirIncluded versionIncluded
                  rw [hdata]
                  simp only [hmd, hv]
                  simpa using hpv
                rw [if_pos hpv, hl]
                refine ⟨(i, md) :: l, rfl, ?_⟩
                simp only [List.map_cons, List.filter_cons, hinc, if_true,
                  hmap]
              · have hinc : idIncluded root cur true i = false := by
                  rw [idIncluded_eq root cur true i d hd]
                  unfold dirIncluded versionIncluded
                  rw [hdata]
                  simp only [hmd, hv]
                  simpa using hpv
                rw [if_neg hpv]
                refine ⟨l, hl, ?_⟩
                simp only [List.filter_cons, hinc, Bool.false_eq_true,
                  if_false, hmap]

/-- C9: `list_local_datasets` succeeds on a well-formed datasets root,
returning exactly the non-hidden directories that contain a `data` entry,
keyed in lexicographically sorted order; with the compatibility flag set, a
dataset is kept exactly when its stored `minari_version` parses equal to the
running library version (exact parsed equality, not a range). -/
theorem C9_list_datasets (root : DatasetRoot) (cur : String) (compat : Bool)
    (hnd : (root.map DatasetDir.dirName).Nodup)
    (hwf : ∀ d ∈ root, startsWithDot d.dirName = false →
      dirWF compat d = true) :
    ∃ l, list_local_datasets root cur compat = .ok l ∧
      l.map Prod.fst =
        (sortStrings ((root.map DatasetDir.dirName).filter
          (fun n => !(startsWithDot n)))).filter
          (idIncluded root cur compat) ∧
      (l.map Prod.fst).Sorted (· ≤ ·) ∧
      ∀ d ∈ root, (d.dirName ∈ l.map Prod.fst ↔
        (startsWithDot d.dirName = false ∧
          d.entries.contains "data" = true ∧
          (compat = true → ∃ md v, d.mainData = some md ∧
            lookupKey md "minari_version" = some (.strV v) ∧
            parseVersion v = parseVersion cur))) := by
  have hids : ∀ i ∈ sortStrings ((root.map DatasetDir.dirName).filter
      (fun n => !(startsWithDot n))),
      ∃ d, findDir root i = some d ∧ dirWF compat d = true := by
    intro i hi
    have hi' := (sortStrings_perm _).subset hi
    rw [List.mem_filter] at hi'
    obtain ⟨hin, hhid⟩ := hi'
    obtain ⟨d, hdmem, rfl⟩ := List.mem_map.mp hin
    refine ⟨d, findDir_nodup root d hnd hdmem, hwf d hdmem ?_⟩
    simpa using hhid
  obtain ⟨l, hl, hmap⟩ := collectDatasets_spec root cur compat _ hids
  refine ⟨l, hl, hmap, ?_, ?_⟩
  · rw [hmap]
    exact List.Pairwise.sublist (List.filter_sublist _) (sortStrings_sorted _)
  · intro d hdmem
    rw [hmap, List.mem_filter]
    have hfd : idIncluded root cur compat d.dirName =
        dirIncluded cur compat d :=
      idIncluded_eq root cur compat d.dirName d (findDir_nodup root d hnd hdmem)
    have hsmem : d.dirName ∈ sortStrings ((root.map DatasetDir.dirName).filter
        (fun n => !(startsWithDot n))) ↔
        startsWithDot d.dirName = false := by
      rw [(sortStrings_perm _).mem_iff, List.mem_filter]
      constructor
      · rintro ⟨_, hh⟩
        simpa using hh
      · intro hh
        exact ⟨List.mem_map_of_mem DatasetDir.dirName hdmem, by simpa using hh⟩
    rw [hfd, hsmem, dirIncluded_iff]

/-- Evaluation of `C9_list_datasets` on a root holding a hidden directory, a
version-matching dataset, an outdated dataset, and a directory without a
`data` entry. -/
theorem C9_witness :
    ∃ l, list_local_datasets rootEx "1.0.0" true = .ok l ∧
      l.map Prod.fst =
        (sortStrings ((rootEx.map DatasetDir.dirName).filter
          (fun n => !(startsWithDot n)))).filter
          (idIncluded rootEx "1.0.0" true) ∧
      (l.map Prod.fst).Sorted (· ≤ ·) ∧
      ∀ d ∈ rootEx, (d.dirName ∈ l.map Prod.fst ↔
        (startsWithDot d.dirName = false ∧
          d.entries.contains "data" = true ∧
          (true = true → ∃ md v, d.mainData = some md ∧
            lookupKey md "minari_version" = some (.strV v) ∧
            parseVersion v = parseVersion "1.0.0"))) :=
  C9_list_datasets rootEx "1.0.0" true (by decide) (by decide)

end Kabuki
